import Mathlib

/-!
Shallow embedding of the Environment / Executor / Scheduler core of
`src/isolate/environment.cc` (namespace `ivm`), together with theorems
checking the natural-language specification against it.

Runnable work items are opaque in the source (`std::unique_ptr<Runnable>`);
we identify them by natural numbers.  Machine-word quantities
(`size_t` heap sizes) are modelled as `Nat`; the source performs no
arithmetic on them that could overflow in practice and no overflowing
operation appears in the translated code paths.
-/

namespace Ivm

/-- Ids standing for opaque `Runnable` work items. -/
abbrev Runnable := Nat

/-- Model of `Scheduler::Status` from the scheduler state machine
(`enum class Status { Waiting, Running }` per the spec's data model;
the header carrying the declaration is not part of the sources, but the
spec and every use in `environment.cc` fix its two values). -/
inductive Status where
  | Waiting
  | Running
  deriving DecidableEq, Repr

/-- Model of `v8::MemoryPressureLevel` as used by the memory-pressure machinery. -/
inductive MemoryPressureLevel where
  | kNone
  | kModerate
  | kCritical
  deriving DecidableEq, Repr

/-- Per-environment `Scheduler` state: the run/wait status flag and the four
FIFO work queues (`tasks`, `handle_tasks`, `interrupts`, `sync_interrupts`).
Queues are lists with the front of the queue at the head; a push appends at
the tail. -/
structure Scheduler where
  status : Status
  tasks : List Runnable
  handle_tasks : List Runnable
  interrupts : List Runnable
  sync_interrupts : List Runnable
  deriving DecidableEq, Repr

/-- Where `WakeIsolate` dispatched the wake: the default thread's
`root_async` handle (`uv_async_send`) or a pool worker (`thread_pool.exec`). -/
inductive Dispatch where
  | rootAsync
  | poolWorker
  deriving DecidableEq, Repr

/-- Process-wide scheduler state: the global `uv_ref_count`, whether the
`root_async` handle is currently referenced, whether `root_async.data`
holds a pending wake, and the record of dispatched wakes. -/
structure GlobalScheduler where
  uv_ref_count : Nat
  uv_refed : Bool
  root_async_data : Bool
  dispatches : List Dispatch
  deriving DecidableEq, Repr

namespace Scheduler

/-- Model of `Scheduler::Lock::DoneRunning`: asserts the status is `Running`
(a failed assert is a fatal invariant violation, modelled as `none`)
and flips it to `Waiting`. -/
def DoneRunning (s : Scheduler) : Option Scheduler :=
  if s.status = Status.Running then
    some { s with status := Status.Waiting }
  else
    none

/-- Model of `Scheduler::Lock::PushTask`. -/
def PushTask (s : Scheduler) (r : Runnable) : Scheduler :=
  { s with tasks := s.tasks ++ [r] }

/-- Model of `Scheduler::Lock::PushHandleTask`. -/
def PushHandleTask (s : Scheduler) (r : Runnable) : Scheduler :=
  { s with handle_tasks := s.handle_tasks ++ [r] }

/-- Model of `Scheduler::Lock::PushInterrupt`. -/
def PushInterrupt (s : Scheduler) (r : Runnable) : Scheduler :=
  { s with interrupts := s.interrupts ++ [r] }

/-- Model of `Scheduler::Lock::PushSyncInterrupt`. -/
def PushSyncInterrupt (s : Scheduler) (r : Runnable) : Scheduler :=
  { s with sync_interrupts := s.sync_interrupts ++ [r] }

/-- Model of `Scheduler::Lock::TakeTasks`: swap the queue out with an empty one,
returning the old contents. -/
def TakeTasks (s : Scheduler) : List Runnable × Scheduler :=
  (s.tasks, { s with tasks := [] })

/-- Model of `Scheduler::Lock::TakeHandleTasks`. -/
def TakeHandleTasks (s : Scheduler) : List Runnable × Scheduler :=
  (s.handle_tasks, { s with handle_tasks := [] })

/-- Model of `Scheduler::Lock::TakeInterrupts`. -/
def TakeInterrupts (s : Scheduler) : List Runnable × Scheduler :=
  (s.interrupts, { s with interrupts := [] })

/-- Model of `Scheduler::Lock::TakeSyncInterrupts`. -/
def TakeSyncInterrupts (s : Scheduler) : List Runnable × Scheduler :=
  (s.sync_interrupts, { s with sync_interrupts := [] })

/-- Model of `Scheduler::IncrementUvRef`: bump the global count and, when it
becomes 1, `uv_ref` the root async handle. -/
def IncrementUvRef (g : GlobalScheduler) : GlobalScheduler :=
  { g with
    uv_ref_count := g.uv_ref_count + 1,
    uv_refed := if g.uv_ref_count + 1 = 1 then true else g.uv_refed }

/-- Model of `Scheduler::Lock::WakeIsolate`: if status is `Waiting`, flip to
`Running`, increment the global outstanding-work count and dispatch one
wake, to the root async handle when the environment is root (asserting
`root_async.data == nullptr`, modelled as `none` on failure) and to a pool
worker otherwise; return `true`.  If status is `Running`, change nothing
and return `false`. -/
def WakeIsolate (root : Bool) (s : Scheduler) (g : GlobalScheduler) :
    Option (Bool × Scheduler × GlobalScheduler) :=
  if s.status = Status.Waiting then
    if root then
      if g.root_async_data then
        none
      else
        some (true, { s with status := Status.Running },
          { IncrementUvRef g with
            root_async_data := true,
            dispatches := g.dispatches ++ [Dispatch.rootAsync] })
    else
      some (true, { s with status := Status.Running },
        { IncrementUvRef g with
          dispatches := g.dispatches ++ [Dispatch.poolWorker] })
  else
    some (false, s, g)

/-- The operations of `Scheduler::Lock` that touch scheduler state,
used to state the status-transition invariant. -/
inductive Op where
  | doneRunning
  | wakeIsolate (root : Bool)
  | pushTask (r : Runnable)
  | pushHandleTask (r : Runnable)
  | pushInterrupt (r : Runnable)
  | pushSyncInterrupt (r : Runnable)
  | takeTasks
  | takeHandleTasks
  | takeInterrupts
  | takeSyncInterrupts
  | interruptIsolate
  | interruptSyncIsolate
  deriving DecidableEq, Repr

/-- One `Scheduler::Lock` operation acting on the scheduler and global
state.  `interruptIsolate` asserts `status == Running`
(`Scheduler::Lock::InterruptIsolate`); a failed assert is `none`. -/
def step (op : Op) (s : Scheduler) (g : GlobalScheduler) :
    Option (Scheduler × GlobalScheduler) :=
  match op with
  | Op.doneRunning => (DoneRunning s).map (fun s' => (s', g))
  | Op.wakeIsolate root => (WakeIsolate root s g).map (fun p => p.2)
  | Op.pushTask r => some (PushTask s r, g)
  | Op.pushHandleTask r => some (PushHandleTask s r, g)
  | Op.pushInterrupt r => some (PushInterrupt s r, g)
  | Op.pushSyncInterrupt r => some (PushSyncInterrupt s r, g)
  | Op.takeTasks => some ((TakeTasks s).2, g)
  | Op.takeHandleTasks => some ((TakeHandleTasks s).2, g)
  | Op.takeInterrupts => some ((TakeInterrupts s).2, g)
  | Op.takeSyncInterrupts => some ((TakeSyncInterrupts s).2, g)
  | Op.interruptIsolate => if s.status = Status.Running then some (s, g) else none
  | Op.interruptSyncIsolate => some (s, g)

end Scheduler

/-- Model of `Scheduler::AsyncWait`: the two-flag rendezvous.  The flags start unset
when the object is constructed (the field initializers live in the header,
which is not among the sources; the theorems therefore take the initial
flag values as hypotheses). -/
structure AsyncWait where
  ready : Bool
  done : Bool
  deriving DecidableEq, Repr

namespace AsyncWait

/-- Model of `AsyncWait::Ready`: set `ready`; notify the waiter only if `done` is
already set.  Returns the new state and whether a notification was sent. -/
def Ready (w : AsyncWait) : AsyncWait × Bool :=
  ({ w with ready := true }, w.done)

/-- Model of `AsyncWait::Wake`: set `done`; notify the waiter only if `ready` is
already set. -/
def Wake (w : AsyncWait) : AsyncWait × Bool :=
  ({ w with done := true }, w.ready)

/-- Model of `AsyncWait::Wait` loops `while (!ready || !done) wait();` so the blocked
thread is released exactly when both flags hold. -/
def WaitReleased (w : AsyncWait) : Bool :=
  w.ready && w.done

/-- A call to one of the two signalling entry points. -/
inductive Call where
  | ready
  | wake
  deriving DecidableEq, Repr

/-- Apply a sequence of `Ready`/`Wake` calls. -/
def applyCalls : List Call → AsyncWait → AsyncWait
  | [], w => w
  | Call.ready :: rest, w => applyCalls rest (Ready w).1
  | Call.wake :: rest, w => applyCalls rest (Wake w).1

end AsyncWait

/-- The slice of `v8::HeapStatistics` the translated code reads. -/
structure HeapStatistics where
  used_heap_size : Nat
  heap_size_limit : Nat
  deriving DecidableEq, Repr

/-- The state of one `IsolateEnvironment`, restricted to the fields the
translated member functions read or write.  `isolate` and `holder` are
opaque identities.  `weak_persistents` maps a handle id to the id of its
`(fn, param)` callback pair.  External engine effects that leave no state
behind in the environment (inspector shutdown, `TerminateExecution`,
`holder->isolate.reset()`, `isolate->Dispose()`) are recorded in the
boolean fields `inspector_terminated`, `execution_terminated`,
`holder_released` and `disposed`. -/
structure IsolateEnvironment where
  root : Bool
  isolate : Nat
  holder : Nat
  scheduler : Scheduler
  memory_limit : Nat
  misc_memory_size : Nat
  extra_allocated_memory : Nat
  initial_heap_size_limit : Nat
  did_adjust_heap_limit : Bool
  memory_pressure : MemoryPressureLevel
  hit_memory_limit : Bool
  terminated : Bool
  has_inspector : Bool
  inspector_terminated : Bool
  execution_terminated : Bool
  holder_released : Bool
  disposed : Bool
  weak_persistents : List (Nat × Nat)
  deriving DecidableEq, Repr

namespace IsolateEnvironment

/-- Model of `IsolateEnvironment::Terminate`: asserts the environment is not root
(fatal on root, modelled as `none`); sets `terminated`, stops the inspector
agent if one is attached, forcibly terminates engine execution, and resets
the holder's reference to the isolate. -/
def Terminate (env : IsolateEnvironment) : Option IsolateEnvironment :=
  if env.root then
    none
  else
    some { env with
      terminated := true,
      inspector_terminated := env.has_inspector || env.inspector_terminated,
      execution_terminated := true,
      holder_released := true }

/-- Model of `IsolateEnvironment::CheckMemoryPressure`: if a pressure level is
pending, clear it and deliver a `MemoryPressureNotification` to the
engine. -/
def CheckMemoryPressure (env : IsolateEnvironment) : IsolateEnvironment :=
  if env.memory_pressure ≠ MemoryPressureLevel.kNone then
    { env with memory_pressure := MemoryPressureLevel.kNone }
  else
    env

/-- Model of `IsolateEnvironment::AddWeakCallback`: no-op on root; throws a logic
error (`true` in the second component) on duplicate add; otherwise inserts
the entry. -/
def AddWeakCallback (env : IsolateEnvironment) (handle fnparam : Nat) :
    IsolateEnvironment × Bool :=
  if env.root then
    (env, false)
  else if (env.weak_persistents.find? (fun e => e.1 == handle)).isSome then
    (env, true)
  else
    ({ env with weak_persistents := env.weak_persistents ++ [(handle, fnparam)] }, false)

/-- Model of `IsolateEnvironment::RemoveWeakCallback`: no-op on root; throws a logic
error on a missing entry; otherwise erases the entry. -/
def RemoveWeakCallback (env : IsolateEnvironment) (handle : Nat) :
    IsolateEnvironment × Bool :=
  if env.root then
    (env, false)
  else if (env.weak_persistents.find? (fun e => e.1 == handle)).isNone then
    (env, true)
  else
    ({ env with weak_persistents := env.weak_persistents.eraseP (fun e => e.1 == handle) },
      false)

end IsolateEnvironment

/-- Model of `IsolateEnvironment::HeapCheck`: records, at construction, the
environment's `extra_allocated_memory` and whether the check is forced. -/
structure HeapCheck where
  extra_size_before : Nat
  force : Bool
  deriving DecidableEq, Repr

namespace HeapCheck

/-- The `HeapCheck` constructor. -/
def make (env : IsolateEnvironment) (force : Bool) : HeapCheck :=
  { extra_size_before := env.extra_allocated_memory, force := force }

/-- Model of `HeapCheck::Epilogue`.  The two heap readings the code performs are
supplied as oracles: `used1` is `used_heap_size()` at the first
`GetHeapStatistics`, `used2` the value re-read after the
`LowMemoryNotification`.  Returns the updated environment and whether a
`js_fatal_error` was thrown; `none` only on the unreachable assert inside
`Terminate` (the guard ensures the environment is non-root there). -/
def Epilogue (hc : HeapCheck) (env : IsolateEnvironment) (used1 used2 : Nat) :
    Option (IsolateEnvironment × Bool) :=
  if !env.root && (hc.force || env.extra_allocated_memory ≠ hc.extra_size_before) then
    if env.memory_limit < used1 + env.extra_allocated_memory then
      if env.memory_limit < used2 + env.extra_allocated_memory then
        (IsolateEnvironment.Terminate { env with hit_memory_limit := true }).map
          (fun env' => (env', true))
      else
        some (env, false)
    else
      some (env, false)
  else
    some (env, false)

end HeapCheck

/-- Externally visible engine actions taken by the GC callbacks. -/
inductive Action where
  | notifyPressure (level : MemoryPressureLevel)
  | ratchetHeapLimit
  | interruptRequested
  deriving DecidableEq, Repr

namespace IsolateEnvironment

/-- Model of `IsolateEnvironment::MarkSweepCompactEpilogue`.  `collectAll` and
`forced` are the two bits of `gc_flags` the code tests
(`kGCCallbackFlagCollectAllAvailableGarbage`, `kGCCallbackFlagForced`).
Each `GetHeapStatistics` call consumes the next entry of `oracle`.
`RequestMemoryPressureNotification(level, is_reentrant_gc = true)` is
inlined at its two call sites: it clears the pending pressure level,
notifies the engine, and — only for a critical level — re-enters this
epilogue with the forced flag, which the `fuel` parameter bounds
(`none` = fuel exhausted, or the unreachable root assert in `Terminate`). -/
def MarkSweepCompactEpilogue :
    Nat → IsolateEnvironment → Bool → Bool → List HeapStatistics →
    Option (IsolateEnvironment × List Action × List HeapStatistics)
  | 0, _, _, _, _ => none
  | fuel + 1, env, collectAll, forced, oracle =>
    let heap := oracle.headD { used_heap_size := 0, heap_size_limit := 0 }
    let o1 := oracle.tail
    let total_memory := heap.used_heap_size + env.extra_allocated_memory
    let memory_limit := env.memory_limit + env.misc_memory_size
    if memory_limit < total_memory then
      if collectAll || forced then
        match Terminate env with
        | none => none
        | some env1 => some ({ env1 with hit_memory_limit := true }, [], o1)
      else
        let env1 := { env with memory_pressure := MemoryPressureLevel.kNone }
        match MarkSweepCompactEpilogue fuel env1 false true o1 with
        | none => none
        | some (env2, acts, o2) =>
          some (env2, Action.notifyPressure MemoryPressureLevel.kCritical :: acts, o2)
    else if !collectAll then
      let ratchet :=
        if env.did_adjust_heap_limit then
          let heap2 := o1.headD { used_heap_size := 0, heap_size_limit := 0 }
          let env1 :=
            if heap2.heap_size_limit = env.initial_heap_size_limit then
              { env with did_adjust_heap_limit := false }
            else
              env
          (env1, [Action.ratchetHeapLimit], o1.tail)
        else
          (env, ([] : List Action), o1)
      if memory_limit < total_memory + total_memory / 4 then
        some ({ ratchet.1 with memory_pressure := MemoryPressureLevel.kNone },
          ratchet.2.1 ++ [Action.notifyPressure MemoryPressureLevel.kModerate],
          ratchet.2.2)
      else
        some ratchet
    else
      some (env, [], o1)

/-- Model of `IsolateEnvironment::NearHeapLimitCallback`: flags that the heap limit
was adjusted, requests a critical or moderate pressure notification as an
interrupt depending on current usage, and grants an extra 1 GiB. -/
def NearHeapLimitCallback (env : IsolateEnvironment) (heap : HeapStatistics)
    (current_heap_limit : Nat) : IsolateEnvironment × List Action × Nat :=
  let env1 := { env with did_adjust_heap_limit := true }
  if env.memory_limit + env.misc_memory_size
      < heap.used_heap_size + env.extra_allocated_memory then
    ({ env1 with memory_pressure := MemoryPressureLevel.kCritical },
      [Action.interruptRequested], current_heap_limit + 1024 * 1024 * 1024)
  else
    ({ env1 with memory_pressure := MemoryPressureLevel.kModerate },
      [Action.interruptRequested], current_heap_limit + 1024 * 1024 * 1024)

end IsolateEnvironment

/-- What one opaque `Runnable::Run()` may do to scheduler-visible state:
push further work onto the four queues, set the memory-limit flag (via a
failed heap check inside the task), and leave a pending memory-pressure
level.  Status transitions are not available to a task body: the only
status writers are `DoneRunning` and `WakeIsolate`, and the latter is a
no-op while the pass holds status `Running`. -/
structure RunEffect where
  pushTasks : List Runnable
  pushHandleTasks : List Runnable
  pushInterrupts : List Runnable
  pushSyncInterrupts : List Runnable
  setHitLimit : Bool
  setPressure : Option MemoryPressureLevel
  deriving DecidableEq, Repr

/-- The effect of a task that touches nothing. -/
def RunEffect.none : RunEffect :=
  { pushTasks := [], pushHandleTasks := [], pushInterrupts := [],
    pushSyncInterrupts := [], setHitLimit := false, setPressure := Option.none }

/-- Apply one task's effect to the environment. -/
def applyEffect (e : RunEffect) (env : IsolateEnvironment) : IsolateEnvironment :=
  { env with
    scheduler := { env.scheduler with
      tasks := env.scheduler.tasks ++ e.pushTasks,
      handle_tasks := env.scheduler.handle_tasks ++ e.pushHandleTasks,
      interrupts := env.scheduler.interrupts ++ e.pushInterrupts,
      sync_interrupts := env.scheduler.sync_interrupts ++ e.pushSyncInterrupts },
    hit_memory_limit := env.hit_memory_limit || e.setHitLimit,
    memory_pressure :=
      match e.setPressure with
      | some p => p
      | Option.none => env.memory_pressure }

/-- Events of an execution pass, for stating ordering properties. -/
inductive Ev where
  | run (r : Runnable)
  | memCheck
  | doneRunning
  deriving DecidableEq, Repr

/-- Run a swapped-out interrupt or handle-task queue front to back. -/
def runQueue (eff : Runnable → RunEffect) :
    List Runnable → IsolateEnvironment → IsolateEnvironment × List Ev
  | [], env => (env, [])
  | r :: rest, env =>
    let env1 := applyEffect (eff r) env
    let out := runQueue eff rest env1
    (out.1, Ev.run r :: out.2)

/-- Run a swapped-out task queue: after each task, stop at once if
`hit_memory_limit` is set (third component `true`), otherwise run
`CheckMemoryPressure` before the next task. -/
def runTasks (eff : Runnable → RunEffect) :
    List Runnable → IsolateEnvironment → IsolateEnvironment × List Ev × Bool
  | [], env => (env, [], false)
  | r :: rest, env =>
    let env1 := applyEffect (eff r) env
    if env1.hit_memory_limit then
      (env1, [Ev.run r], true)
    else
      let env2 := IsolateEnvironment.CheckMemoryPressure env1
      let out := runTasks eff rest env2
      (out.1, Ev.run r :: Ev.memCheck :: out.2.1, out.2.2)

/-- Model of `IsolateEnvironment::AsyncEntry`, the execution pass run by whichever
thread picked up the wake.  Loop: under the scheduler lock swap out the
`tasks`, `handle_tasks` and `interrupts` queues; if all three are empty,
call `DoneRunning` and stop; otherwise run every interrupt, then every
handle-task, then every task with the memory-limit stop and pressure check,
and iterate.  `fuel` bounds the iterations (`none` = fuel exhausted, or
the `DoneRunning` assert fired). -/
def AsyncEntry (eff : Runnable → RunEffect) :
    Nat → IsolateEnvironment → Option (IsolateEnvironment × List Ev)
  | 0, _ => Option.none
  | fuel + 1, env =>
    let t := Scheduler.TakeTasks env.scheduler
    let h := Scheduler.TakeHandleTasks t.2
    let i := Scheduler.TakeInterrupts h.2
    let env0 := { env with scheduler := i.2 }
    if t.1.isEmpty && h.1.isEmpty && i.1.isEmpty then
      match Scheduler.DoneRunning env0.scheduler with
      | Option.none => Option.none
      | some sch => some ({ env0 with scheduler := sch }, [Ev.doneRunning])
    else
      let a := runQueue eff i.1 env0
      let b := runQueue eff h.1 a.1
      let c := runTasks eff t.1 b.1
      if c.2.2 then
        some (c.1, a.2 ++ b.2 ++ c.2.1)
      else
        match AsyncEntry eff fuel c.1 with
        | Option.none => Option.none
        | some (env4, tr4) => some (env4, a.2 ++ b.2 ++ c.2.1 ++ tr4)

/-- The process-wide Bookkeeping Registry (`isolate_map`), mapping an
engine-instance identity to the owning environment's holder identity. -/
abbrev Registry := List (Nat × Nat)

/-- Model of `IsolateEnvironment::LookupIsolate`: look the engine instance up in the
registry; a null holder (`none`) when it is not registered, the owning
environment's holder otherwise. -/
def LookupIsolate (registry : Registry) (iso : Nat) : Option Nat :=
  (registry.find? (fun e => e.1 == iso)).map (fun e => e.2)

/-- The invocation order of the weak-callback sweep in the destructor:
the loop advances the iterator past the current entry and then invokes its
callback, so a callback's erasures (`effect p` is the set of handles the
callback with param id `p` removes from the table) affect which later
entries are still visited.  `deleted` accumulates the handles erased so
far. -/
def weakInvoked (effect : Nat → List Nat) :
    List (Nat × Nat) → List Nat → List (Nat × Nat)
  | [], _ => []
  | e :: rest, deleted =>
    if e.1 ∈ deleted then
      weakInvoked effect rest deleted
    else
      e :: weakInvoked effect rest (effect e.2 ++ deleted)

/-- The weak-callback sweep of the destructor: invoke the callbacks in
table order and compute the table that remains (every entry whose handle
no invoked callback erased), together with the handles whose callbacks
were invoked. -/
def weakSweep (effect : Nat → List Nat) (tbl : List (Nat × Nat)) :
    List (Nat × Nat) × List Nat :=
  let inv := weakInvoked effect tbl []
  let erased := (inv.map (fun e => effect e.2)).flatten
  (tbl.filter (fun e => !(erased.contains e.1)), inv.map Prod.fst)

/-- Model of `IsolateEnvironment::~IsolateEnvironment`: a no-op for the root
environment.  Otherwise: detach and destroy the inspector agent, invoke
every registered weak callback under the Executor lock, assert the table
ended empty (fatal breach = `none`), drain all four queues destroying
their contents, dispose the engine instance with this environment current,
and erase the environment from the Bookkeeping Registry.  Returns the
final environment state, the registry, and the handles whose callbacks
ran. -/
def EnvDtor (effect : Nat → List Nat) (env : IsolateEnvironment)
    (registry : Registry) : Option (IsolateEnvironment × Registry × List Nat) :=
  if env.root then
    some (env, registry, [])
  else
    let sw := weakSweep effect env.weak_persistents
    if sw.1.isEmpty then
      some ({ env with
          has_inspector := false,
          weak_persistents := [],
          scheduler := { env.scheduler with
            tasks := [], handle_tasks := [], interrupts := [], sync_interrupts := [] },
          disposed := true },
        registry.eraseP (fun e => e.1 == env.isolate),
        sw.2)
    else
      Option.none

/-! Theorems checking the specification claims. -/

/-- A concrete non-root environment used to instantiate theorems with
hypotheses at a specific input. -/
def sampleEnv : IsolateEnvironment :=
  { root := false, isolate := 1, holder := 2,
    scheduler := { status := Status.Waiting, tasks := [], handle_tasks := [],
                   interrupts := [], sync_interrupts := [] },
    memory_limit := 100, misc_memory_size := 10, extra_allocated_memory := 0,
    initial_heap_size_limit := 110, did_adjust_heap_limit := false,
    memory_pressure := MemoryPressureLevel.kNone, hit_memory_limit := false,
    terminated := false, has_inspector := false, inspector_terminated := false,
    execution_terminated := false, holder_released := false, disposed := false,
    weak_persistents := [] }

/-- A task effect does not change the status flag. -/
theorem applyEffect_status (e : RunEffect) (env : IsolateEnvironment) :
    (applyEffect e env).scheduler.status = env.scheduler.status := rfl

/-- The memory-pressure check leaves the scheduler untouched. -/
theorem checkMemoryPressure_scheduler (env : IsolateEnvironment) :
    (IsolateEnvironment.CheckMemoryPressure env).scheduler = env.scheduler := by
  unfold IsolateEnvironment.CheckMemoryPressure
  split <;> rfl

/-- The memory-pressure check leaves the memory-limit flag untouched. -/
theorem checkMemoryPressure_hit (env : IsolateEnvironment) :
    (IsolateEnvironment.CheckMemoryPressure env).hit_memory_limit =
      env.hit_memory_limit := by
  unfold IsolateEnvironment.CheckMemoryPressure
  split <;> rfl

/-- Draining an interrupt or handle-task queue preserves the status. -/
theorem runQueue_status (eff : Runnable → RunEffect) :
    ∀ (l : List Runnable) (env : IsolateEnvironment),
      ((runQueue eff l env).1).scheduler.status = env.scheduler.status := by
  intro l
  induction l with
  | nil => intro env; rfl
  | cons r rest ih =>
    intro env
    simp only [runQueue]
    exact ih (applyEffect (eff r) env)

/-- Draining the task queue preserves the status. -/
theorem runTasks_status (eff : Runnable → RunEffect) :
    ∀ (l : List Runnable) (env : IsolateEnvironment),
      ((runTasks eff l env).1).scheduler.status = env.scheduler.status := by
  intro l
  induction l with
  | nil => intro env; rfl
  | cons r rest ih =>
    intro env
    simp only [runTasks]
    split
    · rfl
    · rw [ih, checkMemoryPressure_scheduler]
      rfl

/-- An aborted task drain aborted because the memory-limit flag was set. -/
theorem runTasks_hit (eff : Runnable → RunEffect) :
    ∀ (l : List Runnable) (env : IsolateEnvironment),
      (runTasks eff l env).2.2 = true →
      ((runTasks eff l env).1).hit_memory_limit = true := by
  intro l
  induction l with
  | nil => intro env h; cases h
  | cons r rest ih =>
    intro env
    simp only [runTasks]
    split
    · intro _
      assumption
    · intro h
      exact ih _ h

/-- Shape of the states an execution pass can stop in: either the pass
found the three swapped queues empty and went `Running → Waiting` through
`DoneRunning` with the queues left empty, or it stopped early with
`hit_memory_limit` set and the status still `Running`. -/
theorem asyncEntry_exit_cases (eff : Runnable → RunEffect) :
    ∀ (fuel : Nat) (env env' : IsolateEnvironment) (tr : List Ev),
      env.scheduler.status = Status.Running →
      AsyncEntry eff fuel env = some (env', tr) →
      ((env'.scheduler.status = Status.Waiting ∧ env'.scheduler.tasks = [] ∧
        env'.scheduler.handle_tasks = [] ∧ env'.scheduler.interrupts = []) ∨
       (env'.hit_memory_limit = true ∧ env'.scheduler.status = Status.Running)) := by
  intro fuel
  induction fuel with
  | zero =>
    intro env env' tr _ hstep
    cases hstep
  | succ fuel ih =>
    intro env env' tr hR hstep
    simp only [AsyncEntry, Scheduler.TakeTasks, Scheduler.TakeHandleTasks,
      Scheduler.TakeInterrupts] at hstep
    split at hstep
    · simp only [Scheduler.DoneRunning, hR, if_pos, Option.some.injEq,
        Prod.mk.injEq] at hstep
      obtain ⟨h1, _⟩ := hstep
      subst h1
      left
      exact ⟨rfl, rfl, rfl, rfl⟩
    · split at hstep
      · next habort =>
        simp only [Option.some.injEq, Prod.mk.injEq] at hstep
        obtain ⟨h1, _⟩ := hstep
        subst h1
        right
        refine ⟨runTasks_hit eff _ _ habort, ?_⟩
        rw [runTasks_status, runQueue_status, runQueue_status]
        exact hR
      · rcases hrec : AsyncEntry eff fuel
            ((runTasks eff env.scheduler.tasks
              ((runQueue eff env.scheduler.handle_tasks
                ((runQueue eff env.scheduler.interrupts
                  { env with scheduler := { env.scheduler with
                      tasks := [], handle_tasks := [], interrupts := [] } }).1)).1)).1) with
          _ | ⟨e4, t4⟩
        · rw [hrec] at hstep
          simp at hstep
        · rw [hrec] at hstep
          simp only [Option.some.injEq, Prod.mk.injEq] at hstep
          obtain ⟨h1, _⟩ := hstep
          subst h1
          refine ih _ e4 t4 ?_ hrec
          rw [runTasks_status, runQueue_status, runQueue_status]
          exact hR

/-- A task with the empty effect leaves the environment unchanged. -/
theorem applyEffect_noneEff (env : IsolateEnvironment) :
    applyEffect RunEffect.none env = env := by
  simp [applyEffect, RunEffect.none]

/-- The memory-pressure check does nothing when no pressure is pending. -/
theorem checkMemoryPressure_noPressure (env : IsolateEnvironment)
    (h : env.memory_pressure = MemoryPressureLevel.kNone) :
    IsolateEnvironment.CheckMemoryPressure env = env := by
  simp [IsolateEnvironment.CheckMemoryPressure, h]

/-- With effect-free tasks a queue drain runs its items in FIFO order and
changes nothing. -/
theorem runQueue_noeff (eff : Runnable → RunEffect)
    (heff : ∀ r, eff r = RunEffect.none) :
    ∀ (l : List Runnable) (env : IsolateEnvironment),
      runQueue eff l env = (env, l.map Ev.run) := by
  intro l
  induction l with
  | nil => intro env; rfl
  | cons r rest ih =>
    intro env
    simp [runQueue, heff r, applyEffect_noneEff, ih]

/-- With effect-free tasks, no pending pressure and the memory-limit flag
clear, the task drain runs every task in FIFO order with a memory-pressure
check after each, never aborting. -/
theorem runTasks_noeff (eff : Runnable → RunEffect)
    (heff : ∀ r, eff r = RunEffect.none) :
    ∀ (l : List Runnable) (env : IsolateEnvironment),
      env.hit_memory_limit = false →
      env.memory_pressure = MemoryPressureLevel.kNone →
      runTasks eff l env =
        (env, (l.map (fun r => [Ev.run r, Ev.memCheck])).flatten, false) := by
  intro l
  induction l with
  | nil => intro env _ _; rfl
  | cons r rest ih =>
    intro env hh hp
    simp [runTasks, heff r, applyEffect_noneEff, hh,
      checkMemoryPressure_noPressure env hp, ih env hh hp]

/-- A pass that finds the three queues already empty calls `DoneRunning`
and stops at once. -/
theorem asyncEntry_done (eff : Runnable → RunEffect) (fuel : Nat)
    (env : IsolateEnvironment)
    (h1 : env.scheduler.tasks = []) (h2 : env.scheduler.handle_tasks = [])
    (h3 : env.scheduler.interrupts = [])
    (hR : env.scheduler.status = Status.Running) :
    AsyncEntry eff (fuel + 1) env =
      some ({ env with scheduler := { env.scheduler with status := Status.Waiting } },
        [Ev.doneRunning]) := by
  simp only [AsyncEntry, Scheduler.TakeTasks, Scheduler.TakeHandleTasks,
    Scheduler.TakeInterrupts, h1, h2, h3, List.isEmpty_nil, Bool.and_self, if_true,
    Scheduler.DoneRunning, hR, if_pos, Option.some.injEq]

/-- C1 (amended): an execution pass loops, atomically swapping out the
tasks, handle-tasks and interrupts queues — the sync-interrupts queue is
not part of the pass; it is drained separately by the synchronous
interrupt entry — and if all three are empty calls `DoneRunning` and
stops; otherwise it runs every swapped-out interrupt, then every
handle-task, then every task, each queue in FIFO submission order,
stopping immediately after a task if `hit_memory_limit` is set and
otherwise running a memory-pressure check before the next task; items
pushed during a pass are drained by a later iteration, never skipped:
whenever the pass ends through `DoneRunning` the three queues are
empty. -/
theorem asyncEntry_pass_spec :
    (∀ (eff : Runnable → RunEffect) (fuel : Nat) (env env' : IsolateEnvironment)
        (tr : List Ev),
      env.scheduler.status = Status.Running →
      AsyncEntry eff fuel env = some (env', tr) →
      ((env'.scheduler.status = Status.Waiting ∧ env'.scheduler.tasks = [] ∧
        env'.scheduler.handle_tasks = [] ∧ env'.scheduler.interrupts = []) ∨
       (env'.hit_memory_limit = true ∧ env'.scheduler.status = Status.Running))) ∧
    (∀ (eff : Runnable → RunEffect) (env : IsolateEnvironment),
      (∀ r, eff r = RunEffect.none) →
      env.hit_memory_limit = false →
      env.memory_pressure = MemoryPressureLevel.kNone →
      env.scheduler.status = Status.Running →
      AsyncEntry eff 2 env =
        some ({ env with scheduler := { env.scheduler with status := Status.Waiting, tasks := [], handle_tasks := [], interrupts := [] } },
          env.scheduler.interrupts.map Ev.run ++
            env.scheduler.handle_tasks.map Ev.run ++
            (env.scheduler.tasks.map (fun r => [Ev.run r, Ev.memCheck])).flatten ++
            [Ev.doneRunning])) ∧
    (AsyncEntry
        (fun r => if r = 1 then { RunEffect.none with pushTasks := [2] } else RunEffect.none)
        3
        { sampleEnv with scheduler := { sampleEnv.scheduler with status := Status.Running, tasks := [1] } } =
      some ({ sampleEnv with scheduler := { sampleEnv.scheduler with status := Status.Waiting } },
        [Ev.run 1, Ev.memCheck, Ev.run 2, Ev.memCheck, Ev.doneRunning])) := by
  refine ⟨?_, ?_, ?_⟩
  · intro eff fuel env env' tr hR hstep
    exact asyncEntry_exit_cases eff fuel env env' tr hR hstep
  · intro eff env heff hh hp hR
    by_cases hq : env.scheduler.tasks = [] ∧ env.scheduler.handle_tasks = [] ∧
        env.scheduler.interrupts = []
    · obtain ⟨h1, h2, h3⟩ := hq
      rw [asyncEntry_done eff 1 env h1 h2 h3 hR]
      simp [h1, h2, h3]
    · show AsyncEntry eff (1 + 1) env = _
      simp only [AsyncEntry, Scheduler.TakeTasks, Scheduler.TakeHandleTasks,
        Scheduler.TakeInterrupts]
      have hcond : (env.scheduler.tasks.isEmpty && env.scheduler.handle_tasks.isEmpty &&
          env.scheduler.interrupts.isEmpty) = false := by
        rcases Decidable.em (env.scheduler.tasks = []) with ht | ht
        · rcases Decidable.em (env.scheduler.handle_tasks = []) with hht | hht
          · rcases Decidable.em (env.scheduler.interrupts = []) with hi | hi
            · exact absurd ⟨ht, hht, hi⟩ hq
            · simp [List.isEmpty_iff, hi]
          · simp [List.isEmpty_iff, hht]
        · simp [List.isEmpty_iff, ht]
      rw [hcond]
      have hrt := runTasks_noeff eff heff env.scheduler.tasks
        { env with scheduler := { env.scheduler with tasks := [], handle_tasks := [], interrupts := [] } }
        hh hp
      have hdone := asyncEntry_done eff 0
        { env with scheduler := { env.scheduler with tasks := [], handle_tasks := [], interrupts := [] } }
        rfl rfl rfl hR
      simp only [Bool.false_eq_true, if_false, runQueue_noeff eff heff, hrt, hdone]
      simp only [Scheduler.DoneRunning, hR, if_pos]
      rfl
  · decide

/-- A non-root environment with work on three queues, used to instantiate
the execution-pass theorem. -/
def busyEnv : IsolateEnvironment :=
  { sampleEnv with scheduler := { sampleEnv.scheduler with status := Status.Running, tasks := [8, 9], handle_tasks := [6], interrupts := [5] } }

/-- Closed instance of `asyncEntry_pass_spec`: an effect-free pass over
interrupts `[5]`, handle-tasks `[6]` and tasks `[8, 9]`. -/
theorem asyncEntry_pass_spec_witness :
    AsyncEntry (fun _ => RunEffect.none) 2 busyEnv =
      some ({ busyEnv with scheduler := { busyEnv.scheduler with status := Status.Waiting, tasks := [], handle_tasks := [], interrupts := [] } },
        busyEnv.scheduler.interrupts.map Ev.run ++
          busyEnv.scheduler.handle_tasks.map Ev.run ++
          (busyEnv.scheduler.tasks.map (fun r => [Ev.run r, Ev.memCheck])).flatten ++
          [Ev.doneRunning]) :=
  asyncEntry_pass_spec.2.1 (fun _ => RunEffect.none) busyEnv
    (fun _ => rfl) rfl rfl rfl

/-- Counterexample to C1 as stated: with the sync-interrupts queue
non-empty (`[7]`) and the other three queues empty, the pass calls
`DoneRunning` and stops at once — the sync-interrupts queue is neither
swapped out nor drained, and its item never runs, so the pass does not
swap out "all four" queues. -/
theorem asyncEntry_sync_queue_counterexample :
    AsyncEntry (fun _ => RunEffect.none) 1
        { sampleEnv with scheduler := { sampleEnv.scheduler with status := Status.Running, sync_interrupts := [7] } } =
      some ({ sampleEnv with scheduler := { sampleEnv.scheduler with status := Status.Waiting, sync_interrupts := [7] } },
        [Ev.doneRunning]) ∧
    Ev.run 7 ∉ [Ev.doneRunning] := by
  decide

/-- C9: an `AsyncWait` rendezvous releases the thread blocked in `Wait()`
exactly when both `ready` and `done` are set; starting from both flags
unset, no sequence of `Ready`/`Wake` calls releases the waiter unless it
contains both a `Ready` and a `Wake`, in either order; and each of
`Ready`/`Wake` sends a notification exactly when it observes the other
flag already set. -/
theorem asyncWait_spec :
    (∀ w : AsyncWait, AsyncWait.WaitReleased w = true ↔ (w.ready = true ∧ w.done = true)) ∧
    (∀ w : AsyncWait, (AsyncWait.Ready w).2 = w.done ∧ (AsyncWait.Wake w).2 = w.ready) ∧
    (∀ w : AsyncWait, w.ready = false → w.done = false →
      ∀ calls : List AsyncWait.Call,
        AsyncWait.WaitReleased (AsyncWait.applyCalls calls w) =
          (calls.contains AsyncWait.Call.ready && calls.contains AsyncWait.Call.wake)) := by
  have hready : ∀ (calls : List AsyncWait.Call) (w : AsyncWait),
      (AsyncWait.applyCalls calls w).ready =
        (w.ready || calls.contains AsyncWait.Call.ready) := by
    intro calls
    induction calls with
    | nil => intro w; simp [AsyncWait.applyCalls]
    | cons c rest ih =>
      intro w
      cases c <;>
        simp [AsyncWait.applyCalls, AsyncWait.Ready, AsyncWait.Wake, ih, List.contains_cons]
  have hdone : ∀ (calls : List AsyncWait.Call) (w : AsyncWait),
      (AsyncWait.applyCalls calls w).done =
        (w.done || calls.contains AsyncWait.Call.wake) := by
    intro calls
    induction calls with
    | nil => intro w; simp [AsyncWait.applyCalls]
    | cons c rest ih =>
      intro w
      cases c <;>
        simp [AsyncWait.applyCalls, AsyncWait.Ready, AsyncWait.Wake, ih, List.contains_cons]
  refine ⟨?_, ?_, ?_⟩
  · intro w
    simp [AsyncWait.WaitReleased]
  · intro w
    exact ⟨rfl, rfl⟩
  · intro w hr hd calls
    simp [AsyncWait.WaitReleased, hready, hdone, hr, hd]

/-- Closed instance of `asyncWait_spec`: a `Wake` followed by a `Ready`
releases the waiter from the all-unset state. -/
theorem asyncWait_spec_witness :
    AsyncWait.WaitReleased
        (AsyncWait.applyCalls [AsyncWait.Call.wake, AsyncWait.Call.ready]
          { ready := false, done := false }) =
      ([AsyncWait.Call.wake, AsyncWait.Call.ready].contains AsyncWait.Call.ready &&
        [AsyncWait.Call.wake, AsyncWait.Call.ready].contains AsyncWait.Call.wake) :=
  asyncWait_spec.2.2 { ready := false, done := false } rfl rfl
    [AsyncWait.Call.wake, AsyncWait.Call.ready]

/-- C10: `LookupIsolate` on an engine instance absent from the Bookkeeping
Registry returns a null holder rather than failing; on a registered
instance it returns the owning environment's holder. -/
theorem lookupIsolate_spec :
    (∀ (reg : Registry) (iso : Nat), iso ∉ reg.map Prod.fst →
      LookupIsolate reg iso = Option.none) ∧
    (∀ (reg : Registry) (iso h : Nat), (reg.map Prod.fst).Nodup →
      (iso, h) ∈ reg → LookupIsolate reg iso = some h) := by
  constructor
  · intro reg iso hmem
    have : reg.find? (fun e => e.1 == iso) = Option.none := by
      rw [List.find?_eq_none]
      intro e he
      simp only [beq_iff_eq]
      intro hcontr
      exact hmem (List.mem_map.mpr ⟨e, he, hcontr⟩)
    simp [LookupIsolate, this]
  · intro reg iso h hnodup hmem
    induction reg with
    | nil => cases hmem
    | cons e rest ih =>
      rcases List.mem_cons.mp hmem with heq | htl
      · subst heq
        simp [LookupIsolate, List.find?]
      · have hne : e.1 ≠ iso := by
          intro hcontr
          have : iso ∈ rest.map Prod.fst := List.mem_map.mpr ⟨(iso, h), htl, rfl⟩
          rw [List.map_cons] at hnodup
          exact (List.nodup_cons.mp hnodup).1 (hcontr ▸ this)
        have hrec := ih (List.nodup_cons.mp (by rw [List.map_cons] at hnodup; exact hnodup)).2 htl
        have hfind : List.find? (fun x => x.1 == iso) (e :: rest) =
            List.find? (fun x => x.1 == iso) rest :=
          List.find?_cons_of_neg _ (by simp [hne])
        simp only [LookupIsolate] at hrec ⊢
        rw [hfind]
        exact hrec

/-- Closed instance of `lookupIsolate_spec`: instance 5 is absent from a
registry holding instances 1 and 2, and instance 2 resolves to holder 9. -/
theorem lookupIsolate_spec_witness :
    LookupIsolate [(1, 4), (2, 9)] 5 = Option.none ∧
      LookupIsolate [(1, 4), (2, 9)] 2 = some 9 :=
  ⟨lookupIsolate_spec.1 [(1, 4), (2, 9)] 5 (by decide),
    lookupIsolate_spec.2 [(1, 4), (2, 9)] 2 9 (by decide) (by decide)⟩

/-- C6: `Terminate()` on the root environment is a fatal logic error; on a
non-root environment it sets `terminated`, stops the attached inspector
agent if any, forcibly terminates in-flight engine execution, and releases
the holder's reference to the engine instance. -/
theorem terminate_spec :
    (∀ env : IsolateEnvironment, env.root = true →
      IsolateEnvironment.Terminate env = Option.none) ∧
    (∀ env : IsolateEnvironment, env.root = false →
      IsolateEnvironment.Terminate env =
        some { env with
          terminated := true,
          inspector_terminated := env.has_inspector || env.inspector_terminated,
          execution_terminated := true,
          holder_released := true }) := by
  constructor
  · intro env hroot
    simp [IsolateEnvironment.Terminate, hroot]
  · intro env hroot
    simp [IsolateEnvironment.Terminate, hroot]

/-- C3: for a non-root environment, a `HeapCheck` epilogue that applies
(forced, or `extra_allocated_memory` changed since construction) and finds
`used_heap + extra_allocated_memory > memory_limit` both before and after
the low-memory notification fails with the fatal resource error and leaves
the environment with `hit_memory_limit` and `terminated` set; if the
re-check passes, or the environment is root, or neither force nor an
extra-allocation change applies, it changes nothing and does not fail. -/
theorem heapCheck_epilogue_spec :
    (∀ (hc : HeapCheck) (env : IsolateEnvironment) (u1 u2 : Nat),
      env.root = false →
      (hc.force = true ∨ env.extra_allocated_memory ≠ hc.extra_size_before) →
      env.memory_limit < u1 + env.extra_allocated_memory →
      env.memory_limit < u2 + env.extra_allocated_memory →
      HeapCheck.Epilogue hc env u1 u2 =
        some ({ env with
          hit_memory_limit := true,
          terminated := true,
          inspector_terminated := env.has_inspector || env.inspector_terminated,
          execution_terminated := true,
          holder_released := true }, true)) ∧
    (∀ (hc : HeapCheck) (env : IsolateEnvironment) (u1 u2 : Nat),
      env.root = true → HeapCheck.Epilogue hc env u1 u2 = some (env, false)) ∧
    (∀ (hc : HeapCheck) (env : IsolateEnvironment) (u1 u2 : Nat),
      hc.force = false → env.extra_allocated_memory = hc.extra_size_before →
      HeapCheck.Epilogue hc env u1 u2 = some (env, false)) ∧
    (∀ (hc : HeapCheck) (env : IsolateEnvironment) (u1 u2 : Nat),
      ¬ env.memory_limit < u2 + env.extra_allocated_memory →
      HeapCheck.Epilogue hc env u1 u2 = some (env, false)) := by
  refine ⟨?_, ?_, ?_, ?_⟩
  · intro hc env u1 u2 hroot hcond h1 h2
    have hbool : (!env.root && (hc.force || env.extra_allocated_memory ≠ hc.extra_size_before)) = true := by
      rcases hcond with hf | hx
      · simp [hroot, hf]
      · simp [hroot, hx]
    simp only [HeapCheck.Epilogue, hbool, if_true, if_pos h1, if_pos h2]
    simp [IsolateEnvironment.Terminate, hroot]
  · intro hc env u1 u2 hroot
    simp [HeapCheck.Epilogue, hroot]
  · intro hc env u1 u2 hforce hext
    simp [HeapCheck.Epilogue, hforce, hext]
  · intro hc env u1 u2 hno
    by_cases hcond :
        (!env.root && (hc.force || env.extra_allocated_memory ≠ hc.extra_size_before)) = true
    · by_cases h1 : env.memory_limit < u1 + env.extra_allocated_memory
      · simp [HeapCheck.Epilogue, hcond, h1, hno]
      · simp [HeapCheck.Epilogue, hcond, h1]
    · simp only [HeapCheck.Epilogue]
      rw [if_neg hcond]

/-- Closed instance of `heapCheck_epilogue_spec`: a forced check with usage
200 over limit 100, before and after the notification, fails and flags the
sample environment. -/
theorem heapCheck_epilogue_spec_witness :
    HeapCheck.Epilogue { extra_size_before := 0, force := true } sampleEnv 200 200 =
      some ({ sampleEnv with
        hit_memory_limit := true,
        terminated := true,
        inspector_terminated := sampleEnv.has_inspector || sampleEnv.inspector_terminated,
        execution_terminated := true,
        holder_released := true }, true) :=
  heapCheck_epilogue_spec.1 { extra_size_before := 0, force := true } sampleEnv 200 200
    rfl (Or.inl rfl) (by decide) (by decide)

/-- C5 (amended): in a mark-sweep-compact epilogue of a pass that is not a
collect-all pass, with `used_heap + extra_allocated_memory` within
`memory_limit + misc_memory_size`: the heap limit is ratcheted back
whenever a heap-limit expansion is active — independent of load — with the
adjustment flag cleared exactly when the re-read limit equals the initial
value, and a moderate memory-pressure notification is requested exactly
when load exceeds 80% of the limit; no critical notification and no
termination occur. -/
theorem msce_under_limit_spec :
    ∀ (fuel : Nat) (env : IsolateEnvironment) (forced : Bool)
      (h1 h2 : HeapStatistics) (rest : List HeapStatistics),
      h1.used_heap_size + env.extra_allocated_memory ≤
        env.memory_limit + env.misc_memory_size →
      ∃ (env' : IsolateEnvironment) (acts : List Action) (o : List HeapStatistics),
        IsolateEnvironment.MarkSweepCompactEpilogue (fuel + 1) env false forced
            (h1 :: h2 :: rest) = some (env', acts, o) ∧
        (Action.ratchetHeapLimit ∈ acts ↔ env.did_adjust_heap_limit = true) ∧
        (Action.notifyPressure MemoryPressureLevel.kModerate ∈ acts ↔
          env.memory_limit + env.misc_memory_size <
            (h1.used_heap_size + env.extra_allocated_memory) +
              (h1.used_heap_size + env.extra_allocated_memory) / 4) ∧
        Action.notifyPressure MemoryPressureLevel.kCritical ∉ acts ∧
        env'.did_adjust_heap_limit =
          (env.did_adjust_heap_limit &&
            !(h2.heap_size_limit == env.initial_heap_size_limit)) ∧
        env'.terminated = env.terminated ∧
        env'.hit_memory_limit = env.hit_memory_limit := by
  intro fuel env forced h1 h2 rest hle
  have hno : ¬ (env.memory_limit + env.misc_memory_size <
      h1.used_heap_size + env.extra_allocated_memory) := Nat.not_lt.mpr hle
  by_cases hda : env.did_adjust_heap_limit = true
  · by_cases hmod : env.memory_limit + env.misc_memory_size <
        (h1.used_heap_size + env.extra_allocated_memory) +
          (h1.used_heap_size + env.extra_allocated_memory) / 4
    · by_cases hlim : h2.heap_size_limit = env.initial_heap_size_limit
      · exact ⟨{ env with did_adjust_heap_limit := false, memory_pressure := MemoryPressureLevel.kNone },
          [Action.ratchetHeapLimit, Action.notifyPressure MemoryPressureLevel.kModerate],
          rest,
          by simp [IsolateEnvironment.MarkSweepCompactEpilogue, hno, hda, hlim, hmod],
          by simp [hda], by simp [hmod], by decide, by simp [hlim], rfl, rfl⟩
      · exact ⟨{ env with memory_pressure := MemoryPressureLevel.kNone },
          [Action.ratchetHeapLimit, Action.notifyPressure MemoryPressureLevel.kModerate],
          rest,
          by simp [IsolateEnvironment.MarkSweepCompactEpilogue, hno, hda, hlim, hmod],
          by simp [hda], by simp [hmod], by decide, by simp [hda, hlim], rfl, rfl⟩
    · by_cases hlim : h2.heap_size_limit = env.initial_heap_size_limit
      · exact ⟨{ env with did_adjust_heap_limit := false },
          [Action.ratchetHeapLimit], rest,
          by simp [IsolateEnvironment.MarkSweepCompactEpilogue, hno, hda, hlim, hmod],
          by simp [hda], by simp [hmod], by decide, by simp [hlim], rfl, rfl⟩
      · exact ⟨env, [Action.ratchetHeapLimit], rest,
          by simp [IsolateEnvironment.MarkSweepCompactEpilogue, hno, hda, hlim, hmod],
          by simp [hda], by simp [hmod], by decide, by simp [hda, hlim], rfl, rfl⟩
  · by_cases hmod : env.memory_limit + env.misc_memory_size <
        (h1.used_heap_size + env.extra_allocated_memory) +
          (h1.used_heap_size + env.extra_allocated_memory) / 4
    · exact ⟨{ env with memory_pressure := MemoryPressureLevel.kNone },
        [Action.notifyPressure MemoryPressureLevel.kModerate], h2 :: rest,
        by simp [IsolateEnvironment.MarkSweepCompactEpilogue, hno, hda, hmod],
        by simp [hda], by simp [hmod], by decide, by simp [hda], rfl, rfl⟩
    · exact ⟨env, [], h2 :: rest,
        by simp [IsolateEnvironment.MarkSweepCompactEpilogue, hno, hda, hmod],
        by simp [hda], by simp [hmod], by simp, by simp [hda], rfl, rfl⟩

/-- Closed instance of `msce_under_limit_spec`: active expansion, load at
90% of the limit, re-read limit differing from the initial one. -/
theorem msce_under_limit_spec_witness :
    ∃ (env' : IsolateEnvironment) (acts : List Action) (o : List HeapStatistics),
      IsolateEnvironment.MarkSweepCompactEpilogue 1
          { sampleEnv with misc_memory_size := 0, initial_heap_size_limit := 50,
                           did_adjust_heap_limit := true }
          false false
          ([{ used_heap_size := 90, heap_size_limit := 60 },
            { used_heap_size := 60, heap_size_limit := 60 }] : List HeapStatistics) =
        some (env', acts, o) ∧
      (Action.ratchetHeapLimit ∈ acts ↔
        ({ sampleEnv with misc_memory_size := 0, initial_heap_size_limit := 50,
                          did_adjust_heap_limit := true } :
          IsolateEnvironment).did_adjust_heap_limit = true) ∧
      (Action.notifyPressure MemoryPressureLevel.kModerate ∈ acts ↔
        (100 : Nat) + 0 < (90 + 0) + (90 + 0) / 4) ∧
      Action.notifyPressure MemoryPressureLevel.kCritical ∉ acts ∧
      env'.did_adjust_heap_limit = (true && !((60 : Nat) == 50)) ∧
      env'.terminated = false ∧
      env'.hit_memory_limit = false :=
  msce_under_limit_spec 0
    { sampleEnv with misc_memory_size := 0, initial_heap_size_limit := 50,
                     did_adjust_heap_limit := true }
    false { used_heap_size := 90, heap_size_limit := 60 }
    { used_heap_size := 60, heap_size_limit := 60 } [] (by decide)

/-- Counterexample to C5 as stated: with an active heap-limit expansion and
load at 90% of the limit — between 80% and 100%, not under 80% — the
epilogue still ratchets the heap limit (alongside the moderate
notification), so ratcheting is not conditional on load being under
80%. -/
theorem msce_ratchet_counterexample :
    IsolateEnvironment.MarkSweepCompactEpilogue 1
        { sampleEnv with misc_memory_size := 0, initial_heap_size_limit := 50,
                         did_adjust_heap_limit := true }
        false false
        ([{ used_heap_size := 90, heap_size_limit := 60 },
          { used_heap_size := 60, heap_size_limit := 60 }] : List HeapStatistics) =
      some ({ sampleEnv with misc_memory_size := 0, initial_heap_size_limit := 50,
                             did_adjust_heap_limit := true },
        [Action.ratchetHeapLimit, Action.notifyPressure MemoryPressureLevel.kModerate],
        []) ∧
    (100 : Nat) < 90 + 90 / 4 := by
  decide

/-- In a table whose keys are distinct (`std::unordered_map` semantics),
erasing the first entry with a given key equals dropping every entry with
that key. -/
theorem eraseP_key_eq_filter (wp : List (Nat × Nat)) (h : Nat)
    (hn : (wp.map Prod.fst).Nodup) :
    wp.eraseP (fun e => e.1 == h) = wp.filter (fun e => !(e.1 == h)) := by
  induction wp with
  | nil => rfl
  | cons e rest ih =>
    rw [List.map_cons, List.nodup_cons] at hn
    by_cases he : e.1 = h
    · have hkey : ∀ x ∈ rest, (!(x.1 == h)) = true := by
        intro x hx
        simp only [Bool.not_eq_eq_eq_not, Bool.not_true, beq_eq_false_iff_ne, ne_eq]
        intro hco
        exact hn.1 (by rw [he, ← hco]; exact List.mem_map.mpr ⟨x, hx, rfl⟩)
      rw [List.eraseP_cons_of_pos (by simp [he]), List.filter_cons_of_neg (by simp [he])]
      exact (List.filter_eq_self.mpr hkey).symm
    · rw [List.eraseP_cons_of_neg (by simp [he]), List.filter_cons_of_pos (by simp [he])]
      rw [ih hn.2]

/-- C8: on a non-root environment, `AddWeakCallback` of a handle already
present throws a logic error leaving the table unchanged, and
`RemoveWeakCallback` of a missing handle throws a logic error leaving the
table unchanged; otherwise Add inserts exactly the new entry and Remove
erases exactly the entry with that handle.  On root both are no-ops that
never fail. -/
theorem weak_callback_spec :
    (∀ (env : IsolateEnvironment) (h p : Nat), env.root = true →
      IsolateEnvironment.AddWeakCallback env h p = (env, false) ∧
      IsolateEnvironment.RemoveWeakCallback env h = (env, false)) ∧
    (∀ (env : IsolateEnvironment) (h p q : Nat), env.root = false →
      (h, q) ∈ env.weak_persistents →
      IsolateEnvironment.AddWeakCallback env h p = (env, true)) ∧
    (∀ (env : IsolateEnvironment) (h p : Nat), env.root = false →
      h ∉ env.weak_persistents.map Prod.fst →
      IsolateEnvironment.AddWeakCallback env h p =
        ({ env with weak_persistents := env.weak_persistents ++ [(h, p)] }, false)) ∧
    (∀ (env : IsolateEnvironment) (h : Nat), env.root = false →
      h ∉ env.weak_persistents.map Prod.fst →
      IsolateEnvironment.RemoveWeakCallback env h = (env, true)) ∧
    (∀ (env : IsolateEnvironment) (h q : Nat), env.root = false →
      (env.weak_persistents.map Prod.fst).Nodup →
      (h, q) ∈ env.weak_persistents →
      IsolateEnvironment.RemoveWeakCallback env h =
        ({ env with weak_persistents :=
            env.weak_persistents.filter (fun e => !(e.1 == h)) }, false)) := by
  refine ⟨?_, ?_, ?_, ?_, ?_⟩
  · intro env h p hroot
    constructor <;>
      simp [IsolateEnvironment.AddWeakCallback, IsolateEnvironment.RemoveWeakCallback, hroot]
  · intro env h p q hroot hmem
    have hfound : (env.weak_persistents.find? (fun e => e.1 == h)).isSome := by
      rw [List.find?_isSome]
      exact ⟨(h, q), hmem, by simp⟩
    simp [IsolateEnvironment.AddWeakCallback, hroot, hfound]
  · intro env h p hroot hmem
    have hnone : env.weak_persistents.find? (fun e => e.1 == h) = Option.none := by
      rw [List.find?_eq_none]
      intro x hx
      simp only [beq_iff_eq]
      intro hco
      exact hmem (List.mem_map.mpr ⟨x, hx, hco⟩)
    simp [IsolateEnvironment.AddWeakCallback, hroot, hnone]
  · intro env h hroot hmem
    have hnone : env.weak_persistents.find? (fun e => e.1 == h) = Option.none := by
      rw [List.find?_eq_none]
      intro x hx
      simp only [beq_iff_eq]
      intro hco
      exact hmem (List.mem_map.mpr ⟨x, hx, hco⟩)
    simp [IsolateEnvironment.RemoveWeakCallback, hroot, hnone]
  · intro env h q hroot hnodup hmem
    have hfound : (env.weak_persistents.find? (fun e => e.1 == h)).isSome := by
      rw [List.find?_isSome]
      exact ⟨(h, q), hmem, by simp⟩
    have hnn : (env.weak_persistents.find? (fun e => e.1 == h)).isNone = false := by
      rw [Bool.eq_false_iff]
      intro hco
      rw [Option.isNone_iff_eq_none.mp hco] at hfound
      cases hfound
    simp only [IsolateEnvironment.RemoveWeakCallback, hroot, hnn, Bool.false_eq_true,
      if_false]
    rw [eraseP_key_eq_filter env.weak_persistents h hnodup]

/-- Closed instance of `weak_callback_spec`: duplicate add of handle 3
throws; removing handle 3 erases exactly that entry. -/
theorem weak_callback_spec_witness :
    IsolateEnvironment.AddWeakCallback
        { sampleEnv with weak_persistents := [(3, 8)] } 3 9 =
      ({ sampleEnv with weak_persistents := [(3, 8)] }, true) ∧
    IsolateEnvironment.RemoveWeakCallback
        { sampleEnv with weak_persistents := [(3, 8)] } 3 =
      ({ sampleEnv with weak_persistents :=
          ([(3, 8)] : List (Nat × Nat)).filter (fun e => !(e.1 == 3)) }, false) :=
  ⟨weak_callback_spec.2.1 { sampleEnv with weak_persistents := [(3, 8)] } 3 9 8 rfl
      (by decide),
    weak_callback_spec.2.2.2.2 { sampleEnv with weak_persistents := [(3, 8)] } 3 8 rfl
      (by decide) (by decide)⟩

/-- C2: `WakeIsolate` while status is `Running` returns `false` and changes
nothing; while status is `Waiting` it returns `true`, flips the status to
`Running`, increments the global outstanding-work count, and dispatches
exactly one wake — to the default thread's async handle for the root
environment, to a pool worker otherwise. -/
theorem wakeIsolate_spec :
    (∀ (root : Bool) (s : Scheduler) (g : GlobalScheduler),
      s.status = Status.Running →
      Scheduler.WakeIsolate root s g = some (false, s, g)) ∧
    (∀ (root : Bool) (s : Scheduler) (g : GlobalScheduler),
      s.status = Status.Waiting →
      (root = true → g.root_async_data = false) →
      Scheduler.WakeIsolate root s g =
        some (true, { s with status := Status.Running },
          { uv_ref_count := g.uv_ref_count + 1,
            uv_refed := if g.uv_ref_count + 1 = 1 then true else g.uv_refed,
            root_async_data := root || g.root_async_data,
            dispatches := g.dispatches ++
              [if root then Dispatch.rootAsync else Dispatch.poolWorker] })) := by
  constructor
  · intro root s g hs
    simp [Scheduler.WakeIsolate, hs]
  · intro root s g hs hdata
    cases root with
    | false => simp [Scheduler.WakeIsolate, Scheduler.IncrementUvRef, hs]
    | true =>
      have hd := hdata rfl
      simp [Scheduler.WakeIsolate, Scheduler.IncrementUvRef, hs, hd]

/-- Closed instance of `wakeIsolate_spec`: waking an idle non-root
environment dispatches one pool-worker wake and bumps the count. -/
theorem wakeIsolate_spec_witness :
    Scheduler.WakeIsolate false
        { status := Status.Waiting, tasks := [], handle_tasks := [],
          interrupts := [], sync_interrupts := [] }
        { uv_ref_count := 0, uv_refed := false, root_async_data := false,
          dispatches := [] } =
      some (true,
        { status := Status.Running, tasks := [], handle_tasks := [],
          interrupts := [], sync_interrupts := [] },
        { uv_ref_count := 1, uv_refed := true, root_async_data := false,
          dispatches := [Dispatch.poolWorker] }) := by
  have h := wakeIsolate_spec.2 false
      { status := Status.Waiting, tasks := [], handle_tasks := [],
        interrupts := [], sync_interrupts := [] }
      { uv_ref_count := 0, uv_refed := false, root_async_data := false,
        dispatches := [] }
      rfl (fun hco => by cases hco)
  simpa using h

/-- C4: the status flag only transitions `Waiting → Running` through a
successful `WakeIsolate` and `Running → Waiting` through `DoneRunning`; no
other scheduler operation changes it, and `DoneRunning` while not
`Running` is a fatal invariant violation, not a silent no-op. -/
theorem status_transition_spec :
    (∀ (op : Scheduler.Op) (s : Scheduler) (g : GlobalScheduler) (s' : Scheduler)
        (g' : GlobalScheduler),
      Scheduler.step op s g = some (s', g') → s'.status ≠ s.status →
      (s.status = Status.Waiting ∧ s'.status = Status.Running ∧
        ∃ r, op = Scheduler.Op.wakeIsolate r) ∨
      (s.status = Status.Running ∧ s'.status = Status.Waiting ∧
        op = Scheduler.Op.doneRunning)) ∧
    (∀ s : Scheduler, s.status ≠ Status.Running →
      Scheduler.DoneRunning s = Option.none) ∧
    (∀ s : Scheduler, s.status = Status.Running →
      Scheduler.DoneRunning s = some { s with status := Status.Waiting }) := by
  refine ⟨?_, ?_, ?_⟩
  · intro op s g s' g' hstep hne
    cases op with
    | doneRunning =>
      by_cases hr : s.status = Status.Running
      · right
        simp [Scheduler.step, Scheduler.DoneRunning, hr] at hstep
        exact ⟨hr, by rw [← hstep.1], rfl⟩
      · simp [Scheduler.step, Scheduler.DoneRunning, hr] at hstep
    | wakeIsolate root =>
      by_cases hw : s.status = Status.Waiting
      · left
        refine ⟨hw, ?_, root, rfl⟩
        cases root with
        | false =>
          simp [Scheduler.step, Scheduler.WakeIsolate, hw] at hstep
          rw [← hstep.1]
        | true =>
          by_cases hd : g.root_async_data
          · simp [Scheduler.step, Scheduler.WakeIsolate, hw, hd] at hstep
          · simp [Scheduler.step, Scheduler.WakeIsolate, hw, hd] at hstep
            rw [← hstep.1]
      · simp [Scheduler.step, Scheduler.WakeIsolate, hw] at hstep
        exact absurd (by rw [← hstep.1]) hne
    | pushTask r =>
      simp [Scheduler.step, Scheduler.PushTask] at hstep
      exact absurd (by rw [← hstep.1]) hne
    | pushHandleTask r =>
      simp [Scheduler.step, Scheduler.PushHandleTask] at hstep
      exact absurd (by rw [← hstep.1]) hne
    | pushInterrupt r =>
      simp [Scheduler.step, Scheduler.PushInterrupt] at hstep
      exact absurd (by rw [← hstep.1]) hne
    | pushSyncInterrupt r =>
      simp [Scheduler.step, Scheduler.PushSyncInterrupt] at hstep
      exact absurd (by rw [← hstep.1]) hne
    | takeTasks =>
      simp [Scheduler.step, Scheduler.TakeTasks] at hstep
      exact absurd (by rw [← hstep.1]) hne
    | takeHandleTasks =>
      simp [Scheduler.step, Scheduler.TakeHandleTasks] at hstep
      exact absurd (by rw [← hstep.1]) hne
    | takeInterrupts =>
      simp [Scheduler.step, Scheduler.TakeInterrupts] at hstep
      exact absurd (by rw [← hstep.1]) hne
    | takeSyncInterrupts =>
      simp [Scheduler.step, Scheduler.TakeSyncInterrupts] at hstep
      exact absurd (by rw [← hstep.1]) hne
    | interruptIsolate =>
      by_cases hr : s.status = Status.Running
      · simp [Scheduler.step, hr] at hstep
        exact absurd (by rw [← hstep.1]) hne
      · simp [Scheduler.step, hr] at hstep
    | interruptSyncIsolate =>
      simp [Scheduler.step] at hstep
      exact absurd (by rw [← hstep.1]) hne
  · intro s hs
    simp [Scheduler.DoneRunning, hs]
  · intro s hs
    simp [Scheduler.DoneRunning, hs]

/-- Closed instance of `status_transition_spec`: `DoneRunning` on a
`Waiting` scheduler is fatal. -/
theorem status_transition_spec_witness :
    Scheduler.DoneRunning
        { status := Status.Waiting, tasks := [], handle_tasks := [],
          interrupts := [], sync_interrupts := [] } = Option.none :=
  status_transition_spec.2.1
    { status := Status.Waiting, tasks := [], handle_tasks := [],
      interrupts := [], sync_interrupts := [] } (by decide)

/-- When every weak callback erases exactly its own handle — the
discipline the destructor's assert enforces — and handles are distinct,
the sweep visits every entry. -/
theorem weakInvoked_self_erase (effect : Nat → List Nat) :
    ∀ (tbl : List (Nat × Nat)) (deleted : List Nat),
      (∀ e ∈ tbl, effect e.2 = [e.1]) →
      (tbl.map Prod.fst).Nodup →
      (∀ h ∈ deleted, h ∉ tbl.map Prod.fst) →
      weakInvoked effect tbl deleted = tbl := by
  intro tbl
  induction tbl with
  | nil => intro deleted _ _ _; rfl
  | cons e rest ih =>
    intro deleted hself hnodup hdel
    rw [List.map_cons, List.nodup_cons] at hnodup
    have hnot : e.1 ∉ deleted := by
      intro hco
      exact hdel e.1 hco (by rw [List.map_cons]; exact List.mem_cons_self _ _)
    rw [weakInvoked, if_neg hnot]
    congr 1
    rw [hself e (List.mem_cons_self _ _)]
    apply ih
    · intro x hx; exact hself x (List.mem_cons_of_mem _ hx)
    · exact hnodup.2
    · intro h hh
      rcases List.mem_cons.mp hh with h1 | h2
      · rw [h1]; exact hnodup.1
      · intro hco
        exact hdel h h2 (by rw [List.map_cons]; exact List.mem_cons_of_mem _ hco)

/-- Under the self-erasing discipline the sweep empties the table and
invokes every registered handle in order. -/
theorem weakSweep_self_erase (effect : Nat → List Nat) (tbl : List (Nat × Nat))
    (hself : ∀ e ∈ tbl, effect e.2 = [e.1])
    (hnodup : (tbl.map Prod.fst).Nodup) :
    weakSweep effect tbl = ([], tbl.map Prod.fst) := by
  have hinv : weakInvoked effect tbl [] = tbl :=
    weakInvoked_self_erase effect tbl [] hself hnodup (by intro h hh; cases hh)
  have hflat : ∀ t : List (Nat × Nat), (∀ e ∈ t, effect e.2 = [e.1]) →
      (t.map (fun e => effect e.2)).flatten = t.map Prod.fst := by
    intro t
    induction t with
    | nil => intro _; rfl
    | cons e rest ihr =>
      intro hs
      rw [List.map_cons, List.map_cons, List.flatten_cons, hs e (List.mem_cons_self _ _),
        ihr (fun x hx => hs x (List.mem_cons_of_mem _ hx))]
      rfl
  have hfil : tbl.filter (fun e => !((tbl.map Prod.fst).contains e.1)) = [] := by
    rw [List.filter_eq_nil_iff]
    intro e he
    have hm : e.1 ∈ tbl.map Prod.fst := List.mem_map.mpr ⟨e, he, rfl⟩
    simp [List.contains, List.elem_eq_mem, hm]
  simp only [weakSweep, hinv, hflat tbl hself, hfil]

/-- If registry keys are distinct, erasing the entry of an engine
instance leaves no entry with that key. -/
theorem eraseP_key_not_mem (reg : Registry) (iso : Nat)
    (hnodup : (reg.map Prod.fst).Nodup) :
    iso ∉ (reg.eraseP (fun e => e.1 == iso)).map Prod.fst := by
  rw [eraseP_key_eq_filter reg iso hnodup]
  intro hmem
  obtain ⟨e, he, hfst⟩ := List.mem_map.mp hmem
  have := (List.mem_filter.mp he).2
  rw [hfst] at this
  simp at this

/-- C7: destruction of a non-root environment invokes every registered
weak-reference cleanup, after which the table is empty (a table left
non-empty by the callbacks is a fatal invariant breach), drains all four
work queues, disposes the engine instance, and removes the environment
from the Bookkeeping Registry; destruction of the root environment is a
no-op.  Stated for any number of registered callbacks (under the
self-erasing callback discipline the assert enforces) and any queue
contents. -/
theorem envDtor_spec :
    (∀ (effect : Nat → List Nat) (env : IsolateEnvironment) (reg : Registry),
      env.root = true → EnvDtor effect env reg = some (env, reg, [])) ∧
    (∀ (effect : Nat → List Nat) (env : IsolateEnvironment) (reg : Registry),
      env.root = false →
      (∀ e ∈ env.weak_persistents, effect e.2 = [e.1]) →
      (env.weak_persistents.map Prod.fst).Nodup →
      ∃ (env' : IsolateEnvironment) (reg' : Registry),
        EnvDtor effect env reg = some (env', reg', env.weak_persistents.map Prod.fst) ∧
        env'.weak_persistents = [] ∧
        env'.scheduler.tasks = [] ∧
        env'.scheduler.handle_tasks = [] ∧
        env'.scheduler.interrupts = [] ∧
        env'.scheduler.sync_interrupts = [] ∧
        env'.disposed = true ∧
        ((reg.map Prod.fst).Nodup → env.isolate ∉ reg'.map Prod.fst)) ∧
    (∀ (effect : Nat → List Nat) (env : IsolateEnvironment) (reg : Registry),
      env.root = false → (weakSweep effect env.weak_persistents).1 ≠ [] →
      EnvDtor effect env reg = Option.none) := by
  refine ⟨?_, ?_, ?_⟩
  · intro effect env reg hroot
    simp [EnvDtor, hroot]
  · intro effect env reg hroot hself hnodup
    have hsweep := weakSweep_self_erase effect env.weak_persistents hself hnodup
    refine ⟨{ env with
        has_inspector := false,
        weak_persistents := [],
        scheduler := { env.scheduler with tasks := [], handle_tasks := [], interrupts := [], sync_interrupts := [] },
        disposed := true },
      reg.eraseP (fun e => e.1 == env.isolate),
      ?_, rfl, rfl, rfl, rfl, rfl, rfl, ?_⟩
    · simp [EnvDtor, hroot, hsweep]
    · intro hr
      exact eraseP_key_not_mem reg env.isolate hr
  · intro effect env reg hroot hne
    have : (weakSweep effect env.weak_persistents).1.isEmpty = false := by
      cases hempty : (weakSweep effect env.weak_persistents).1 with
      | nil => exact absurd hempty hne
      | cons a b => rfl
    simp [EnvDtor, hroot, this]

/-- Closed instance of `envDtor_spec`: two self-erasing weak callbacks, a
queued task, and a registered engine instance. -/
theorem envDtor_spec_witness :
    ∃ (env' : IsolateEnvironment) (reg' : Registry),
      EnvDtor (fun p => [p / 10])
          { sampleEnv with weak_persistents := [(3, 30), (4, 40)],
                           scheduler := { sampleEnv.scheduler with tasks := [11] } }
          [(1, 2), (5, 6)] =
        some (env', reg',
          ([(3, 30), (4, 40)] : List (Nat × Nat)).map Prod.fst) ∧
      env'.weak_persistents = [] ∧
      env'.scheduler.tasks = [] ∧
      env'.scheduler.handle_tasks = [] ∧
      env'.scheduler.interrupts = [] ∧
      env'.scheduler.sync_interrupts = [] ∧
      env'.disposed = true ∧
      ((([(1, 2), (5, 6)] : Registry).map Prod.fst).Nodup →
        ({ sampleEnv with weak_persistents := [(3, 30), (4, 40)],
                          scheduler := { sampleEnv.scheduler with tasks := [11] } } :
          IsolateEnvironment).isolate ∉ reg'.map Prod.fst) :=
  envDtor_spec.2.1 (fun p => [p / 10])
    { sampleEnv with weak_persistents := [(3, 30), (4, 40)],
                     scheduler := { sampleEnv.scheduler with tasks := [11] } }
    [(1, 2), (5, 6)] rfl (by decide) (by decide)

/-- Closed instance of `terminate_spec` on the sample non-root
environment. -/
theorem terminate_spec_witness :
    IsolateEnvironment.Terminate sampleEnv =
      some { sampleEnv with
        terminated := true,
        inspector_terminated := sampleEnv.has_inspector || sampleEnv.inspector_terminated,
        execution_terminated := true,
        holder_released := true } :=
  terminate_spec.2 sampleEnv rfl

end Ivm
